import Mathlib

/-!
# kube-test backend: configuration loading, connection string and shutdown coordination

A shallow embedding of `src/backend/main.go` together with the library
routines it calls (`strconv.Atoi`, `fmt.Sprintf`, `os.Getenv`,
`godotenv.Load`, `http.ResponseWriter.WriteHeader`), and theorems about
`loadConfig`, `run` and `HealthCheck`.

Conventions.
* A Go `string` is a sequence of bytes: `GoString = List (Fin 256)`.
  `str "..."` turns an ASCII literal of the source into its bytes.
* A Go `error` is `Option GoError`: `none` is `nil`.
* A Go `*DatabaseConfig` is `Option DatabaseConfig`: `none` is `nil`.
* Go `int` is 64 bits wide; machine arithmetic is written on `Nat`/`Int`
  with explicit wrap-around (`wrapUint64`, `wrapInt64`).
-/

namespace KubeTest

/-! ## Strings and errors -/

abbrev Byte := Fin 256

abbrev GoString := List Byte

/-- The byte of a character of an ASCII literal. -/
def byteOf (c : Char) : Byte := Fin.ofNat c.toNat

/-- The bytes of an ASCII literal. -/
def str (s : String) : GoString := s.data.map byteOf

/-- The two sentinel errors of package `strconv`. -/
inductive NumErr where
  | ErrSyntax
  | ErrRange
  deriving DecidableEq

/-- Error values. `numError` is `*strconv.NumError{Func, Num, Err}`; `external n`
stands for an error value produced by a library outside the repository
(godotenv, pgxpool, net/http), identified by `n`. -/
inductive GoError where
  | numError (fn : GoString) (num : GoString) (err : NumErr)
  | external (id : Nat)
  deriving DecidableEq

/-! ## `strconv.Atoi` -/

/-- The constant `strconv.IntSize`. -/
def intSize : Nat := 64

/-- Conversion to `uint64`. -/
def wrapUint64 (n : Nat) : Nat := n % 2 ^ 64

/-- Conversion to `int64` (two's complement). -/
def wrapInt64 (z : Int) : Int := (z + 2 ^ 63) % 2 ^ 64 - 2 ^ 63

def fnAtoi : GoString := str "Atoi"

def fnParseInt : GoString := str "ParseInt"

def fnParseUint : GoString := str "ParseUint"

def syntaxError (fn s : GoString) : GoError := .numError fn s .ErrSyntax

def rangeError (fn s : GoString) : GoError := .numError fn s .ErrRange

/-- The function `lower(c)` of strconv: `c | ('x' - 'X')`. -/
def lower (c : Byte) : Nat := c.val ||| 32

/-- The value `maxUint64/10 + 1`, the cutoff `ParseUint` uses for base 10. -/
def uintCutoff : Nat := (2 ^ 64 - 1) / 10 + 1

/-- The bound `maxVal` of `ParseUint` for `bitSize = IntSize = 64`. -/
def maxVal : Nat := 2 ^ 64 - 1

/-- The digit loop of `strconv.ParseUint` for `base = 10` (so `base0` is false and
`_` falls to the default case). The result is the returned number and, on
failure, which sentinel error the loop returned. -/
def parseUintLoop : List Byte → Nat → Nat × Option NumErr
  | [], n => (n, none)
  | c :: rest, n =>
    if 48 ≤ c.val ∧ c.val ≤ 57 then
      let d := c.val - 48
      if d ≥ 10 then (0, some .ErrSyntax)
      else if n ≥ uintCutoff then (maxVal, some .ErrRange)
      else
        let n10 := wrapUint64 (n * 10)
        let n1 := wrapUint64 (n10 + d)
        if n1 < n10 ∨ n1 > maxVal then (maxVal, some .ErrRange)
        else parseUintLoop rest n1
    else if 97 ≤ lower c ∧ lower c ≤ 122 then
      let d := (lower c - 97 + 10) % 256
      if d ≥ 10 then (0, some .ErrSyntax)
      else if n ≥ uintCutoff then (maxVal, some .ErrRange)
      else
        let n10 := wrapUint64 (n * 10)
        let n1 := wrapUint64 (n10 + d)
        if n1 < n10 ∨ n1 > maxVal then (maxVal, some .ErrRange)
        else parseUintLoop rest n1
    else (0, some .ErrSyntax)

/-- The call `strconv.ParseUint(s, 10, 0)`. -/
def ParseUint (s : GoString) : Nat × Option GoError :=
  if s = [] then (0, some (syntaxError fnParseUint s))
  else
    let s0 := s
    match parseUintLoop s 0 with
    | (n, none) => (n, none)
    | (n, some .ErrSyntax) => (n, some (syntaxError fnParseUint s0))
    | (n, some .ErrRange) => (n, some (rangeError fnParseUint s0))

/-- The call `strconv.ParseInt(s, 10, 0)`. -/
def ParseInt (s : GoString) : Int × Option GoError :=
  if s = [] then (0, some (syntaxError fnParseInt s))
  else
    let s0 := s
    let (neg, s1) : Bool × GoString :=
      if s.head? = some 43 then (false, s.tail)
      else if s.head? = some 45 then (true, s.tail)
      else (false, s)
    match ParseUint s1 with
    | (_, some (.numError _ _ .ErrSyntax)) => (0, some (.numError fnParseInt s0 .ErrSyntax))
    | (_, some (.external n)) => (0, some (.external n))
    | (un, _) =>
      let cutoff : Nat := 2 ^ (intSize - 1)
      if !neg ∧ un ≥ cutoff then (((cutoff - 1 : Nat) : Int), some (rangeError fnParseInt s0))
      else if neg ∧ un > cutoff then (-(cutoff : Int), some (rangeError fnParseInt s0))
      else
        let n := wrapInt64 un
        let n := if neg then wrapInt64 (-n) else n
        (n, none)

/-- The loop of the fast path of `strconv.Atoi`; `none` is the syntax-error exit. -/
def atoiLoop : List Byte → Int → Option Int
  | [], n => some n
  | ch :: rest, n =>
    let ch := (ch.val + 256 - 48) % 256
    if ch > 9 then none
    else atoiLoop rest (wrapInt64 (n * 10 + ch))

/-- The function `strconv.Atoi`. -/
def Atoi (s : GoString) : Int × Option GoError :=
  let sLen := s.length
  if (intSize = 32 ∧ (0 < sLen ∧ sLen < 10)) ∨ (intSize = 64 ∧ (0 < sLen ∧ sLen < 19)) then
    let s0 := s
    let signed : Bool := decide (s.head? = some 45) || decide (s.head? = some 43)
    let s1 := if signed then s.tail else s
    if signed ∧ s1.length < 1 then (0, some (syntaxError fnAtoi s0))
    else
      match atoiLoop s1 0 with
      | none => (0, some (syntaxError fnAtoi s0))
      | some n =>
        let n := if s0.head? = some 45 then wrapInt64 (-n) else n
        (n, none)
  else
    match ParseInt s with
    | (i64, some (.numError _ num err)) => (i64, some (.numError fnAtoi num err))
    | (i64, err) => (i64, err)

/-! ## Process environment and `godotenv.Load` -/

/-- The process environment (`os.Environ()`): key/value entries; the first entry
of a key is the one `os.Getenv` sees. -/
abbrev Env := List (GoString × GoString)

/-- The function `os.LookupEnv`. -/
def LookupEnv (env : Env) (key : GoString) : Option GoString := env.lookup key

/-- The function `os.Getenv`: the value of the variable, empty when it is not present. -/
def Getenv (env : Env) (key : GoString) : GoString :=
  match LookupEnv env key with
  | some v => v
  | none => []

/-- Replace the value of the first entry of `key`, or append a new entry. -/
def setEntry : Env → GoString → GoString → Env
  | [], key, value => [(key, value)]
  | (k, v) :: rest, key, value =>
    if k = key then (k, value) :: rest else (k, v) :: setEntry rest key value

/-- The function `os.Setenv`: fails with `EINVAL` (environment unchanged) on an empty key, a key
holding `=` or NUL, or a value holding NUL. The caller below discards the error,
so only the resulting environment is returned. -/
def Setenv (env : Env) (key value : GoString) : Env :=
  if key.length = 0 ∨ (61 : Byte) ∈ key ∨ (0 : Byte) ∈ key ∨ (0 : Byte) ∈ value then env
  else setEntry env key value

/-- What godotenv's `readFile(".env")` yields: an error (the file cannot be opened
or does not parse), or the map of the file's entries. -/
inductive DotenvFile where
  | unreadable (err : GoError)
  | parsed (envMap : List (GoString × GoString))
  deriving DecidableEq

/-- The part of the outside world `loadConfig` reads: the process environment and
the `.env` file of the working directory. -/
structure World where
  env : Env
  dotenv : DotenvFile
  deriving DecidableEq

/-- The call `godotenv.Load()` with no file names, that is `loadFile(".env", false)`: a
read error is returned; otherwise every entry of the file whose key is not
already in the environment is set. Returns the error and the new environment. -/
def godotenvLoad (w : World) : Option GoError × Env :=
  match w.dotenv with
  | .unreadable err => (some err, w.env)
  | .parsed envMap =>
    (none, envMap.foldl
      (fun env kv => if (LookupEnv w.env kv.1).isNone then Setenv env kv.1 kv.2 else env) w.env)

/-! ## `loadConfig` -/

structure DatabaseConfig where
  DbName : GoString
  DbHost : GoString
  DbPort : Int
  DbUsername : GoString
  DbPassword : GoString
  deriving DecidableEq

/-- The function `loadConfig` of `main.go`. The result is the returned pair
`(*DatabaseConfig, error)` and the process environment it leaves behind. -/
def loadConfig (w : World) : (Option DatabaseConfig × Option GoError) × Env :=
  match godotenvLoad w with
  | (some err, env) => ((none, some err), env)
  | (none, env) =>
    match Atoi (Getenv env (str "DB_PORT")) with
    | (_, some err) => ((none, some err), env)
    | (port, none) =>
      let config : DatabaseConfig :=
        { DbName := Getenv env (str "DB_NAME")
          DbHost := Getenv env (str "DB_HOST")
          DbPassword := Getenv env (str "DB_PASSWORD")
          DbPort := port
          DbUsername := Getenv env (str "DB_USERNAME") }
      ((some config, none), env)

/-! ## `fmt.Sprintf` -/

/-- An operand of `Sprintf`: a `string` or an `int`. -/
inductive Arg where
  | string (s : GoString)
  | int (n : Int)
  deriving DecidableEq

/-- The base-10 loop of `fmt.fmtInteger`, writing digits right to left in front of
`buf`: `for u >= 10 { next := u / 10; buf[i] = '0' + u - next*10; u = next }`
and then `buf[i] = digits[u]`. The fuel is the room of the 68-byte buffer. -/
def fmtDigits : Nat → Nat → List Byte → List Byte
  | 0, u, buf => Fin.ofNat (48 + u) :: buf
  | fuel + 1, u, buf =>
    if u ≥ 10 then
      let next := u / 10
      fmtDigits fuel next (Fin.ofNat (48 + u - next * 10) :: buf)
    else Fin.ofNat (48 + u) :: buf

/-- The call `fmtInteger(uint64(v), 10, signed, 'd', ldigits)` with no flags, width or
precision: the verb `%d` applied to an `int`. -/
def fmtInteger (v : Int) : GoString :=
  let u : Nat := (v % 2 ^ 64).toNat
  let negative : Bool := decide (wrapInt64 u < 0)
  let u := if negative then wrapUint64 (2 ^ 64 - u) else u
  let buf := fmtDigits 67 u []
  if negative then 45 :: buf else buf

/-- The function `doPrintf` of package `fmt` on the fragment of formats made of plain bytes and
the verbs `%s` (on a string), `%d` (on an int) and `%%`, with no flags.
`afterPercent` tells that the byte before was the `%` opening a verb.
`none` stands for every format or operand list outside this fragment. -/
def doPrintf : List Byte → Bool → List Arg → Option GoString
  | [], false, [] => some []
  | [], false, _ :: _ => none
  | [], true, _ => none
  | c :: rest, false, args =>
    if c = 37 then doPrintf rest true args
    else (doPrintf rest false args).map (fun out => c :: out)
  | verb :: rest, true, args =>
    if verb = 37 then (doPrintf rest false args).map (fun out => 37 :: out)
    else
      match args with
      | [] => none
      | .string s :: args =>
        if verb = 115 then (doPrintf rest false args).map (fun out => s ++ out) else none
      | .int n :: args =>
        if verb = 100 then (doPrintf rest false args).map (fun out => fmtInteger n ++ out)
        else none

def Sprintf (format : GoString) (args : List Arg) : Option GoString :=
  doPrintf format false args

/-- The connection string `run` builds on line 57. -/
def connString (config : DatabaseConfig) : Option GoString :=
  Sprintf (str "postgres://%s:%s@%s:%d/%s")
    [.string config.DbUsername, .string config.DbPassword, .string config.DbHost,
     .int config.DbPort, .string config.DbName]

/-! ## `HealthCheck` -/

/-- The state of an `http.ResponseWriter` a handler can change. -/
structure ResponseWriter where
  wroteHeader : Bool
  status : Nat
  body : List Byte
  deriving DecidableEq

/-- The response the server hands to a handler: nothing written yet. -/
def ResponseWriter.fresh : ResponseWriter := { wroteHeader := false, status := 0, body := [] }

structure Request where
  method : GoString
  path : GoString
  header : List (GoString × GoString)
  body : List Byte
  deriving DecidableEq

def StatusOK : Nat := 200

/-- The method `(*response).WriteHeader`: a second call is ignored; the first records the code. -/
def WriteHeader (w : ResponseWriter) (code : Nat) : ResponseWriter :=
  if w.wroteHeader then w else { w with wroteHeader := true, status := code }

/-- The handler `HealthCheck` of `main.go`. -/
def HealthCheck (w : ResponseWriter) (_r : Request) : ResponseWriter :=
  WriteHeader w StatusOK

/-- The function `routes` of `main.go`: the patterns registered on the mux, each with its
handler. -/
def routes : List (GoString × (ResponseWriter → Request → ResponseWriter)) :=
  [(str "GET /", HealthCheck)]

/-! ## `run` -/

/-- The constant `time.Second`, in nanoseconds. -/
def Second : Nat := 1000000000

/-- The calls `run` makes on its collaborators, in program order. -/
inductive Event where
  | loadConfig
  | poolNew (connString : GoString)
  | ping
  | makeChan (capacity : Nat)
  | newServer (addr : GoString)
  | goListenAndServe
  | withTimeout (d : Nat)
  | shutdown (deadline : Nat)
  | cancel
  deriving DecidableEq

/-- What the collaborators of `run` do in one execution.
* `poolNew dsn`: the error of `pgxpool.New(ctx, dsn)`;
* `ping`: the error of `conn.Ping(ctx)`;
* `listenAndServe`: the value `srv.ListenAndServe()` has returned by the time the
  `select` resolves, `none` while it is still serving;
* `ctxDone`: whether `ctx.Done()` is ready by then;
* `pickDone`: the arm the runtime picks when both are ready;
* `shutdown`: the error of `srv.Shutdown(ctxShutdown)`. -/
structure Externals where
  poolNew : GoString → Option GoError
  ping : Option GoError
  listenAndServe : Option (Option GoError)
  ctxDone : Bool
  pickDone : Bool
  shutdown : Option GoError

/-- The goroutine of `run`: `if err := srv.ListenAndServe(); err != nil { errChan <- err }`.
The result is the list of values it sends on `errChan`. -/
def acceptLoop (listenResult : Option GoError) : List (Option GoError) :=
  match listenResult with
  | some err => [some err]
  | none => []

/-- The arm on which the `select` of `run` resolves. -/
inductive Arm where
  | ctxDone
  | errChan (err : Option GoError)
  deriving DecidableEq

/-- The `select` statement: it blocks (`none`) while neither arm is ready. -/
def selectArm (ctxDone : Bool) (errChan : List (Option GoError)) (pickDone : Bool) : Option Arm :=
  match ctxDone, errChan with
  | false, [] => none
  | true, [] => some .ctxDone
  | false, err :: _ => some (.errChan err)
  | true, err :: _ => if pickDone then some .ctxDone else some (.errChan err)

/-- How an execution of `run` ends. `unmodelled` is a format outside the fragment
of `doPrintf`. -/
inductive Outcome where
  | returns (err : Option GoError)
  | blocks
  | panics
  | unmodelled
  deriving DecidableEq

structure RunResult where
  outcome : Outcome
  trace : List Event
  deriving DecidableEq

/-- The contents of `errChan` when the `select` resolves. -/
def errChanAtSelect (x : Externals) : List (Option GoError) :=
  match x.listenAndServe with
  | none => []
  | some r => acceptLoop r

/-- The `select` of `run` and what follows it; `startup` is the trace so far. -/
def serve (x : Externals) (startup : List Event) : RunResult :=
  match selectArm x.ctxDone (errChanAtSelect x) x.pickDone with
  | none => ⟨.blocks, startup⟩
  | some .ctxDone =>
    let tr := startup ++ [.withTimeout (5 * Second), .shutdown (5 * Second)]
    match x.shutdown with
    | some err => ⟨.returns (some err), tr ++ [.cancel]⟩
    | none => ⟨.returns none, tr ++ [.cancel]⟩
  | some (.errChan err) => ⟨.returns err, startup⟩

/-- The function `run` of `main.go`. -/
def run (w : World) (x : Externals) : RunResult :=
  match (loadConfig w).1 with
  | (_, some err) => ⟨.returns (some err), [.loadConfig]⟩
  | (none, none) => ⟨.panics, [.loadConfig]⟩
  | (some config, none) =>
    match connString config with
    | none => ⟨.unmodelled, [.loadConfig]⟩
    | some dsn =>
      match x.poolNew dsn with
      | some err => ⟨.returns (some err), [.loadConfig, .poolNew dsn]⟩
      | none =>
        match x.ping with
        | some err => ⟨.returns (some err), [.loadConfig, .poolNew dsn, .ping]⟩
        | none =>
          serve x [.loadConfig, .poolNew dsn, .ping, .makeChan 1, .newServer (str ":8080"), .goListenAndServe]

/-! ## What a base-10 integer is -/

def isDigit (c : Byte) : Bool := decide (48 ≤ c.val ∧ c.val ≤ 57)

/-- The number a digit string denotes, most significant digit first, continuing `n`. -/
def decFold : List Byte → Nat → Nat
  | [], n => n
  | c :: rest, n => decFold rest (n * 10 + (c.val - 48))

def minInt : Int := -(2 ^ 63)

def maxInt : Int := 2 ^ 63 - 1

/-- Take an optional leading `+` or `-` off: the flag tells a minus sign. -/
def splitSign : GoString → Bool × GoString
  | [] => (false, [])
  | c :: rest => if c = 43 then (false, rest) else if c = 45 then (true, rest) else (false, c :: rest)

/-- The integer a string denotes in base 10: an optional sign, then one or more
decimal digits, the value being within the range of `int`; `none` for every
other string. -/
def base10Value (s : GoString) : Option Int :=
  let ds := (splitSign s).2
  let v : Int := if (splitSign s).1 then -(decFold ds 0 : Int) else (decFold ds 0 : Int)
  if ds ≠ [] ∧ ds.all isDigit = true ∧ minInt ≤ v ∧ v ≤ maxInt then some v else none

/-- A pair `(value, error)` returned by a parsing routine agrees with the integer
the string denotes: the value with a nil error when there is one, a non-nil
error when there is none. -/
def Agrees (r : Int × Option GoError) (o : Option Int) : Prop :=
  match o with
  | some v => r = (v, none)
  | none => r.2.isSome = true

instance instDecidableAgrees (r : Int × Option GoError) (o : Option Int) :
    Decidable (Agrees r o) := by
  unfold Agrees
  split <;> infer_instance

/-! ## Decimal rendering -/

/-- The base-10 rendering of an integer: a minus sign for a negative number, then
the digits without leading zeros. -/
def decimal (z : Int) : GoString := str (toString z)

/-! ## The connection string as the specification words it -/

/-- The form `postgres://{username}:{password}@{host}:{port}/{dbname}`, each field
verbatim and the port in base 10. -/
def specDSN (config : DatabaseConfig) : GoString :=
  str "postgres://" ++ config.DbUsername ++ str ":" ++ config.DbPassword ++ str "@" ++
    config.DbHost ++ str ":" ++ decimal config.DbPort ++ str "/" ++ config.DbName

/-! ## Example worlds -/

/-- All five variables in the process environment, and no `.env` file: opening it
fails (error 2 stands for the "no such file" error). -/
def worldNoFile : World :=
  { env := [(str "DB_NAME", str "app"), (str "DB_HOST", str "db"), (str "DB_PORT", str "5432"),
            (str "DB_USERNAME", str "u"), (str "DB_PASSWORD", str "p")]
    dotenv := .unreadable (.external 2) }

/-- The same process environment with an empty `.env` file. -/
def worldEmptyFile : World :=
  { env := [(str "DB_NAME", str "app"), (str "DB_HOST", str "db"), (str "DB_PORT", str "5432"),
            (str "DB_USERNAME", str "u"), (str "DB_PASSWORD", str "p")]
    dotenv := .parsed [] }

/-- Only `DB_PORT` is set; the `.env` file exists and is empty. -/
def worldPortOnly : World :=
  { env := [(str "DB_PORT", str "5432")], dotenv := .parsed [] }

/-- The value of `DB_PORT` is `-5`; the `.env` file supplies the database name. -/
def worldNegPort : World :=
  { env := [(str "DB_PORT", str "-5")], dotenv := .parsed [(str "DB_NAME", str "app")] }

/-- The configuration `loadConfig` returns on `worldNegPort`. -/
def configNegPort : DatabaseConfig :=
  { DbName := str "app", DbHost := [], DbPort := -5, DbUsername := [], DbPassword := [] }

/-- The value of `DB_PORT` is not a number. -/
def worldBadPort : World :=
  { env := [(str "DB_NAME", str "app"), (str "DB_PORT", str "54x2")], dotenv := .parsed [] }

/-- The configuration `loadConfig` returns on `worldEmptyFile`. -/
def configExample : DatabaseConfig :=
  { DbName := str "app", DbHost := str "db", DbPort := 5432, DbUsername := str "u",
    DbPassword := str "p" }

/-- User `a:b` with password `c`. -/
def configColonInUser : DatabaseConfig :=
  { DbName := str "app", DbHost := str "db", DbPort := 5432, DbUsername := str "a:b",
    DbPassword := str "c" }

/-- User `a` with password `b:c`. -/
def configColonInPassword : DatabaseConfig :=
  { DbName := str "app", DbHost := str "db", DbPort := 5432, DbUsername := str "a",
    DbPassword := str "b:c" }

/-- Every collaborator succeeds, the listener keeps serving and the context is
cancelled. -/
def externalsCancel : Externals :=
  { poolNew := fun _ => none, ping := none, listenAndServe := none,
    ctxDone := true, pickDone := true, shutdown := none }

/-- Every collaborator succeeds but the listener, which fails to bind (error 98). -/
def externalsBindFails : Externals :=
  { poolNew := fun _ => none, ping := none, listenAndServe := some (some (.external 98)),
    ctxDone := false, pickDone := false, shutdown := none }

/-- The liveness ping fails (error 111). -/
def externalsPingFails : Externals :=
  { poolNew := fun _ => none, ping := some (.external 111), listenAndServe := none,
    ctxDone := false, pickDone := false, shutdown := none }

/-! # Theorems -/

set_option maxRecDepth 20000

/-! ## `strconv.Atoi` accepts exactly the base-10 integers -/

theorem wrapInt64_of_range (z : Int) (h1 : -(2 ^ 63) ≤ z) (h2 : z < 2 ^ 63) : wrapInt64 z = z := by
  unfold wrapInt64
  omega

theorem wrapUint64_of_lt (n : Nat) (h : n < 2 ^ 64) : wrapUint64 n = n := by
  unfold wrapUint64
  omega

theorem decFold_ge (ds : List Byte) (n : Nat) : n ≤ decFold ds n := by
  induction ds generalizing n with
  | nil => simp [decFold]
  | cons c ds ih =>
    have := ih (n * 10 + (c.val - 48))
    simp only [decFold]
    omega

theorem decFold_lt (ds : List Byte) (n : Nat) (h : ds.all isDigit = true) :
    decFold ds n < (n + 1) * 10 ^ ds.length := by
  induction ds generalizing n with
  | nil => simp [decFold]
  | cons c ds ih =>
    simp only [List.all_cons, Bool.and_eq_true] at h
    have hc : 48 ≤ c.val ∧ c.val ≤ 57 := by simpa [isDigit] using h.1
    have := ih (n * 10 + (c.val - 48)) h.2
    simp only [decFold, List.length_cons, pow_succ]
    calc decFold ds (n * 10 + (c.val - 48))
        < (n * 10 + (c.val - 48) + 1) * 10 ^ ds.length := this
      _ ≤ ((n + 1) * 10) * 10 ^ ds.length := by
          apply Nat.mul_le_mul_right
          omega
      _ = (n + 1) * (10 ^ ds.length * 10) := by ring

theorem atoiLoop_spec (ds : List Byte) (n : Nat) (hb : (n + 1) * 10 ^ ds.length ≤ 10 ^ 18) :
    atoiLoop ds (n : Int) = if ds.all isDigit = true then some ((decFold ds n : Nat) : Int) else none := by
  induction ds generalizing n with
  | nil => simp [atoiLoop, decFold]
  | cons c ds ih =>
    have hc := c.isLt
    have hpos : 1 ≤ 10 ^ ds.length := Nat.one_le_pow _ _ (by norm_num)
    rw [List.length_cons, pow_succ] at hb
    have hb1 : (n + 1) * 10 ≤ 10 ^ 18 := by
      calc (n + 1) * 10 = (n + 1) * (1 * 10) := by ring
        _ ≤ (n + 1) * (10 ^ ds.length * 10) := by
            apply Nat.mul_le_mul_left
            exact Nat.mul_le_mul_right _ hpos
        _ ≤ 10 ^ 18 := hb
    by_cases hd : 48 ≤ c.val ∧ c.val ≤ 57
    · have e1 : (c.val + 256 - 48) % 256 = c.val - 48 := by omega
      have hlt : ¬ ((c.val + 256 - 48) % 256 > 9) := by omega
      have hw : wrapInt64 ((n : Int) * 10 + ((c.val + 256 - 48) % 256 : Nat)) = ((n * 10 + (c.val - 48) : Nat) : Int) := by
        rw [wrapInt64_of_range]
        · rw [e1]; push_cast; ring
        · omega
        · norm_num at hb1 ⊢; omega
      have hb2 : (n * 10 + (c.val - 48) + 1) * 10 ^ ds.length ≤ 10 ^ 18 := by
        calc (n * 10 + (c.val - 48) + 1) * 10 ^ ds.length
            ≤ ((n + 1) * 10) * 10 ^ ds.length := by
              apply Nat.mul_le_mul_right
              omega
          _ = (n + 1) * (10 ^ ds.length * 10) := by ring
          _ ≤ 10 ^ 18 := hb
      have hdig : isDigit c = true := by simp [isDigit, hd]
      simp only [atoiLoop, hlt, if_false, List.all_cons, hdig, Bool.true_and, decFold]
      rw [hw]
      exact ih _ hb2
    · have hgt : (c.val + 256 - 48) % 256 > 9 := by omega
      have hdig : isDigit c = false := by simp [isDigit]; omega
      simp only [atoiLoop, List.all_cons, hdig, Bool.false_and]
      rw [if_pos hgt]
      simp

theorem parseUintLoop_ok (ds : List Byte) (n : Nat) (hd : ds.all isDigit = true)
    (hv : decFold ds n < 2 ^ 64) : parseUintLoop ds n = (decFold ds n, none) := by
  induction ds generalizing n with
  | nil => simp [parseUintLoop, decFold]
  | cons c ds ih =>
    simp only [List.all_cons, Bool.and_eq_true] at hd
    have hc : 48 ≤ c.val ∧ c.val ≤ 57 := by simpa [isDigit] using hd.1
    simp only [decFold] at hv ⊢
    have hge := decFold_ge ds (n * 10 + (c.val - 48))
    have h10 : wrapUint64 (n * 10) = n * 10 := wrapUint64_of_lt _ (by omega)
    have h1 : wrapUint64 (n * 10 + (c.val - 48)) = n * 10 + (c.val - 48) :=
      wrapUint64_of_lt _ (by omega)
    have hcut : ¬ (n ≥ uintCutoff) := by
      unfold uintCutoff
      omega
    have hd10 : ¬ (c.val - 48 ≥ 10) := by omega
    have hov : ¬ (n * 10 + (c.val - 48) < n * 10 ∨ n * 10 + (c.val - 48) > maxVal) := by
      unfold maxVal
      omega
    rw [parseUintLoop]
    simp only [hc, and_self, if_true, hd10, if_false, hcut, h10, h1, hov]
    exact ih _ hd.2 hv

theorem parseUintLoop_err (ds : List Byte) (n : Nat) (hn : n < 2 ^ 64)
    (h : ¬ (ds.all isDigit = true ∧ decFold ds n < 2 ^ 64)) :
    parseUintLoop ds n = (0, some .ErrSyntax) ∨ parseUintLoop ds n = (maxVal, some .ErrRange) := by
  induction ds generalizing n with
  | nil => simp [decFold] at h; omega
  | cons c ds ih =>
    rw [parseUintLoop]
    by_cases hc : 48 ≤ c.val ∧ c.val ≤ 57
    · have hdig : isDigit c = true := by simp [isDigit, hc]
      have hd10 : ¬ (c.val - 48 ≥ 10) := by omega
      simp only [hc, and_self, if_true, hd10, if_false]
      by_cases hcut : n ≥ uintCutoff
      · simp [hcut]
      · have hn10 : n * 10 < 2 ^ 64 := by
          unfold uintCutoff at hcut
          omega
        have h10 : wrapUint64 (n * 10) = n * 10 := wrapUint64_of_lt _ hn10
        simp only [hcut, if_false, h10]
        by_cases hov : wrapUint64 (n * 10 + (c.val - 48)) < n * 10 ∨
            wrapUint64 (n * 10 + (c.val - 48)) > maxVal
        · simp [hov]
        · have hlt : n * 10 + (c.val - 48) < 2 ^ 64 := by
            unfold wrapUint64 at hov
            omega
          have h1 : wrapUint64 (n * 10 + (c.val - 48)) = n * 10 + (c.val - 48) :=
            wrapUint64_of_lt _ hlt
          simp only [hov, if_false]
          rw [h1]
          apply ih _ hlt
          intro hh
          apply h
          simp only [List.all_cons, hdig, Bool.true_and, decFold]
          exact hh
    · simp only [hc, if_false]
      by_cases hl : 97 ≤ lower c ∧ lower c ≤ 122
      · have hd10 : (lower c - 97 + 10) % 256 ≥ 10 := by omega
        simp [hl, hd10]
      · simp [hl]

theorem ParseUint_ok (ds : List Byte) (hne : ds ≠ []) (hd : ds.all isDigit = true)
    (hv : decFold ds 0 < 2 ^ 64) : ParseUint ds = (decFold ds 0, none) := by
  unfold ParseUint
  rw [if_neg hne, parseUintLoop_ok ds 0 hd hv]

theorem ParseUint_err (ds : List Byte)
    (h : ¬ (ds ≠ [] ∧ ds.all isDigit = true ∧ decFold ds 0 < 2 ^ 64)) :
    (∃ num, ParseUint ds = (0, some (.numError fnParseUint num .ErrSyntax))) ∨
    (∃ num, ParseUint ds = (maxVal, some (.numError fnParseUint num .ErrRange))) := by
  unfold ParseUint
  by_cases hne : ds = []
  · left
    exact ⟨ds, by simp [hne, syntaxError]⟩
  · rw [if_neg hne]
    have h2 : ¬ (ds.all isDigit = true ∧ decFold ds 0 < 2 ^ 64) := fun hh => h ⟨hne, hh⟩
    rcases parseUintLoop_err ds 0 (by norm_num) h2 with e | e
    · left
      exact ⟨ds, by rw [e]; rfl⟩
    · right
      exact ⟨ds, by rw [e]; rfl⟩

theorem splitSign_eq (s : GoString) (hne : s ≠ []) :
    (if s.head? = some 43 then (false, s.tail)
      else if s.head? = some 45 then (true, s.tail)
      else (false, s)) = splitSign s := by
  cases s with
  | nil => exact absurd rfl hne
  | cons c rest =>
    simp only [List.head?_cons, Option.some.injEq, List.tail_cons, splitSign]

theorem ParseInt_spec (s : GoString) : Agrees (ParseInt s) (base10Value s) := by
  by_cases hne : s = []
  · subst hne
    simp [ParseInt, base10Value, splitSign, Agrees]
  · unfold ParseInt
    rw [if_neg hne]
    simp only [splitSign_eq s hne]
    unfold base10Value
    generalize splitSign s = p
    obtain ⟨neg, ds⟩ := p
    simp only
    by_cases hok : ds ≠ [] ∧ ds.all isDigit = true ∧ decFold ds 0 < 2 ^ 64
    · obtain ⟨h1, h2, h3⟩ := hok
      rw [ParseUint_ok ds h1 h2 h3]
      simp only [intSize]
      cases neg
      · by_cases hr : decFold ds 0 ≥ 2 ^ 63
        · have : ¬ ((decFold ds 0 : Int) ≤ maxInt) := by unfold maxInt; omega
          have hr2 : 9223372036854775808 ≤ decFold ds 0 := by omega
          simp [hr2, this, Agrees]
        · have hw : wrapInt64 (decFold ds 0 : Nat) = (decFold ds 0 : Nat) :=
            wrapInt64_of_range _ (by omega) (by omega)
          have h4 : minInt ≤ (decFold ds 0 : Int) ∧ (decFold ds 0 : Int) ≤ maxInt := by
            unfold minInt maxInt; omega
          have hr2 : ¬ (9223372036854775808 ≤ decFold ds 0) := by omega
          simp [hr2, hw, h1, h2, h4, Agrees]
      · by_cases hr : decFold ds 0 > 2 ^ 63
        · have : ¬ (minInt ≤ -(decFold ds 0 : Int)) := by unfold minInt; omega
          have hr2 : 9223372036854775808 < decFold ds 0 := by omega
          simp [hr2, this, Agrees]
        · have hw : wrapInt64 (-wrapInt64 (decFold ds 0 : Nat)) = -(decFold ds 0 : Nat) := by
            unfold wrapInt64; omega
          have h4 : minInt ≤ -(decFold ds 0 : Int) ∧ -(decFold ds 0 : Int) ≤ maxInt := by
            unfold minInt maxInt; omega
          have hr2 : ¬ (9223372036854775808 < decFold ds 0) := by omega
          simp [hr2, hw, h1, h2, h4, Agrees]
    · have hnone : (if ds ≠ [] ∧ ds.all isDigit = true ∧
          minInt ≤ (if neg = true then -(decFold ds 0 : Int) else (decFold ds 0 : Int)) ∧
          (if neg = true then -(decFold ds 0 : Int) else (decFold ds 0 : Int)) ≤ maxInt
          then some (if neg = true then -(decFold ds 0 : Int) else (decFold ds 0 : Int)) else none) = none := by
        apply if_neg
        rintro ⟨h1, h2, h3, h4⟩
        apply hok
        refine ⟨h1, h2, ?_⟩
        unfold minInt maxInt at *
        cases neg <;> simp at h3 h4 <;> omega
      rw [hnone]
      rcases ParseUint_err ds hok with ⟨num, e⟩ | ⟨num, e⟩
      · rw [e]
        simp [Agrees]
      · rw [e]
        simp only [intSize, maxVal]
        cases neg <;> simp [Agrees]

theorem atoiFast_spec {s0 : GoString} (neg : Bool) (ds : List Byte) (hlen : ds.length ≤ 18) (hne : ds ≠ []) :
    Agrees
      (match atoiLoop ds 0 with
        | none => (0, some (syntaxError fnAtoi s0))
        | some n => ((if neg = true then wrapInt64 (-n) else n), none))
      (if ds ≠ [] ∧ ds.all isDigit = true ∧
          minInt ≤ (if neg = true then -(decFold ds 0 : Int) else (decFold ds 0 : Int)) ∧
          (if neg = true then -(decFold ds 0 : Int) else (decFold ds 0 : Int)) ≤ maxInt
        then some (if neg = true then -(decFold ds 0 : Int) else (decFold ds 0 : Int)) else none) := by
  have hb : (0 + 1) * 10 ^ ds.length ≤ 10 ^ 18 := by
    rw [Nat.zero_add, Nat.one_mul]
    exact Nat.pow_le_pow_right (by norm_num) hlen
  have hloop := atoiLoop_spec ds 0 hb
  rw [Nat.cast_zero] at hloop
  rw [hloop]
  by_cases hd : ds.all isDigit = true
  · have hlt := decFold_lt ds 0 hd
    have hlt2 : decFold ds 0 < 10 ^ 18 := lt_of_lt_of_le hlt hb
    have hw : wrapInt64 (-(decFold ds 0 : Int)) = -(decFold ds 0 : Int) :=
      wrapInt64_of_range _ (by omega) (by omega)
    have h4 : minInt ≤ (if neg = true then -(decFold ds 0 : Int) else (decFold ds 0 : Int)) ∧
        (if neg = true then -(decFold ds 0 : Int) else (decFold ds 0 : Int)) ≤ maxInt := by
      unfold minInt maxInt
      cases neg <;> simp <;> omega
    rw [if_pos hd, if_pos ⟨hne, hd, h4⟩]
    simp only [Agrees, hw]
  · rw [if_neg hd, if_neg (fun h => hd h.2.1)]
    simp [Agrees]

/-- The function `strconv.Atoi` accepts exactly the strings that denote a base-10 integer within
the range of `int`, and returns the integer denoted. -/
theorem Atoi_spec (s : GoString) : Agrees (Atoi s) (base10Value s) := by
  unfold Atoi
  simp only [intSize, show ¬ ((64 : Nat) = 32) by decide, false_and, false_or, true_and]
  by_cases hfast : 0 < s.length ∧ s.length < 19
  · rw [if_pos hfast]
    cases s with
    | nil => simp at hfast
    | cons c rest =>
      simp only [List.length_cons] at hfast
      unfold base10Value
      simp only [List.head?_cons, Option.some.injEq, List.tail_cons, splitSign]
      by_cases h43 : c = 43
      · subst h43
        simp only [show ¬ ((43 : Byte) = 45) by decide, decide_False, decide_True, Bool.or_true,
          if_true, if_false]
        by_cases hr : rest = []
        · subst hr
          simp [Agrees]
        · have hl : ¬ (rest.length < 1) := by
            have := List.length_pos.mpr hr
            omega
          simp only [hl, and_false, if_false]
          exact atoiFast_spec false rest (by omega) hr
      · by_cases h45 : c = 45
        · subst h45
          simp only [decide_True, Bool.true_or, if_true, show ¬ ((45 : Byte) = 43) by decide,
            if_false]
          by_cases hr : rest = []
          · subst hr
            simp [Agrees]
          · have hl : ¬ (rest.length < 1) := by
              have := List.length_pos.mpr hr
              omega
            simp only [hl, and_false, if_false]
            exact atoiFast_spec true rest (by omega) hr
        · simp only [h43, h45, decide_False, Bool.or_false, if_false, Bool.false_eq_true,
            false_and]
          exact atoiFast_spec false (c :: rest) (by simp only [List.length_cons]; omega) (by simp)
  · rw [if_neg hfast]
    have hp := ParseInt_spec s
    generalize ParseInt s = r at hp
    generalize base10Value s = o at hp
    obtain ⟨i, e⟩ := r
    cases o with
    | some v =>
      simp only [Agrees, Prod.mk.injEq] at hp
      obtain ⟨h1, h2⟩ := hp
      subst h1 h2
      simp [Agrees]
    | none =>
      simp only [Agrees] at hp
      cases e with
      | none => simp at hp
      | some e' => cases e' <;> simp [Agrees]

theorem Atoi_ok (s : GoString) (v : Int) (h : base10Value s = some v) : Atoi s = (v, none) := by
  have := Atoi_spec s
  rw [h] at this
  exact this

theorem Atoi_err (s : GoString) (h : base10Value s = none) : ∃ e, (Atoi s).2 = some e := by
  have := Atoi_spec s
  rw [h] at this
  exact Option.isSome_iff_exists.mp this

theorem Atoi_nil_err (s : GoString) (h : (Atoi s).2 = none) :
    base10Value s = some (Atoi s).1 := by
  have := Atoi_spec s
  cases hb : base10Value s with
  | none =>
    rw [hb] at this
    simp only [Agrees] at this
    rw [h] at this
    cases this
  | some v =>
    rw [hb] at this
    simp only [Agrees] at this
    rw [this]

theorem base10Value_range (s : GoString) (v : Int) (h : base10Value s = some v) :
    minInt ≤ v ∧ v ≤ maxInt := by
  simp only [base10Value, Option.ite_none_right_eq_some] at h
  obtain ⟨hh, hv⟩ := h
  rw [← Option.some.inj hv]
  exact hh.2.2

/-! ## `%d` renders the decimal -/

theorem byteOf_digitChar (k : Nat) (hk : k < 10) : byteOf (Nat.digitChar k) = Fin.ofNat (48 + k) := by
  interval_cases k <;> rfl

theorem fmtDigits_toDigitsCore (f1 : Nat) : ∀ (f2 u : Nat) (ds : List Char),
    u < 10 ^ (f1 + 1) → u < 10 ^ (f2 + 1) →
    fmtDigits f2 u (ds.map byteOf) = (Nat.toDigitsCore 10 (f1 + 1) u ds).map byteOf := by
  induction f1 with
  | zero =>
    intro f2 u ds h1 _
    have hu : u < 10 := by simpa using h1
    have hdiv : u / 10 = 0 := by omega
    have hmod : u % 10 = u := by omega
    have hnot : ¬ (u ≥ 10) := by omega
    cases f2 <;>
      simp [fmtDigits, Nat.toDigitsCore, hdiv, hmod, hnot, byteOf_digitChar u hu]
  | succ f1 ih =>
    intro f2 u ds h1 h2
    by_cases hu : u < 10
    · have hdiv : u / 10 = 0 := by omega
      have hmod : u % 10 = u := by omega
      have hnot : ¬ (u ≥ 10) := by omega
      cases f2 <;>
        simp [fmtDigits, Nat.toDigitsCore, hdiv, hmod, hnot, byteOf_digitChar u hu]
    · have hge : u ≥ 10 := by omega
      have hdiv : ¬ (u / 10 = 0) := by omega
      have hlt1 : u / 10 < 10 ^ (f1 + 1) := by
        rw [pow_succ] at h1
        omega
      have hsub : 48 + u - u / 10 * 10 = 48 + u % 10 := by omega
      cases f2 with
      | zero => simp at h2; omega
      | succ f2 =>
        have hlt2 : u / 10 < 10 ^ (f2 + 1) := by
          rw [pow_succ] at h2
          omega
        have := ih f2 (u / 10) (Nat.digitChar (u % 10) :: ds) hlt1 hlt2
        rw [Nat.toDigitsCore]
        simp only [hdiv, if_false]
        rw [← this, fmtDigits]
        simp only [hge, if_true, hsub, List.map_cons, byteOf_digitChar (u % 10) (by omega)]

theorem fmtDigits_eq (u : Nat) (hu : u < 2 ^ 64) : fmtDigits 67 u [] = str (toString u) := by
  have h1 : u < 10 ^ (u + 1) := by
    calc u < 10 ^ u := Nat.lt_pow_self (by norm_num) u
      _ ≤ 10 ^ (u + 1) := Nat.pow_le_pow_right (by norm_num) (by omega)
  have h2 : u < 10 ^ (67 + 1) := by
    calc u < 2 ^ 64 := hu
      _ ≤ 10 ^ (67 + 1) := by norm_num
  have := fmtDigits_toDigitsCore u 67 u [] h1 h2
  simpa [str, Nat.toDigits, Nat.repr, List.asString, byteOf] using this

theorem fmtInteger_eq (v : Int) (hmin : minInt ≤ v) (hmax : v ≤ maxInt) :
    fmtInteger v = decimal v := by
  unfold minInt at hmin
  unfold maxInt at hmax
  unfold fmtInteger decimal
  cases v with
  | ofNat m =>
    have hm : (m : Int) < 2 ^ 63 := by
      have : Int.ofNat m = (m : Int) := rfl
      omega
    have hu : ((Int.ofNat m) % 2 ^ 64).toNat = m := by
      have : Int.ofNat m = (m : Int) := rfl
      omega
    have hneg : ¬ (wrapInt64 (m : Nat) < 0) := by
      unfold wrapInt64; omega
    simp only [hu, hneg, decide_False, if_false, Bool.false_eq_true]
    rw [fmtDigits_eq m (by omega)]
    rfl
  | negSucc m =>
    have hm : (m : Int) + 1 ≤ 2 ^ 63 := by
      have : Int.negSucc m = -((m : Int) + 1) := rfl
      omega
    have hu : ((Int.negSucc m) % 2 ^ 64).toNat = 2 ^ 64 - (m + 1) := by
      have : Int.negSucc m = -((m : Int) + 1) := rfl
      omega
    have hneg : wrapInt64 ((2 ^ 64 - (m + 1) : Nat) : Int) < 0 := by
      unfold wrapInt64; omega
    have hw : wrapUint64 (2 ^ 64 - (2 ^ 64 - (m + 1))) = m + 1 := by
      unfold wrapUint64; omega
    simp only [hu, hneg, decide_True, if_true, hw]
    rw [fmtDigits_eq (m + 1) (by omega)]
    show (45 : Byte) :: str (toString (m + 1)) = str ("-" ++ toString (Nat.succ m))
    simp [str]
    rfl

/-! ## Environment lemmas -/

theorem lookup_setEntry_ne (env : Env) (key value k : GoString) (h : k ≠ key) :
    LookupEnv (setEntry env key value) k = LookupEnv env k := by
  unfold LookupEnv
  have hb : (k == key) = false := beq_false_of_ne h
  induction env with
  | nil =>
    simp [setEntry, List.lookup, hb]
  | cons p rest ih =>
    obtain ⟨k0, v0⟩ := p
    by_cases hk : k0 = key
    · subst hk
      simp [setEntry, List.lookup, hb]
    · by_cases hkk : k = k0
      · subst hkk
        simp [setEntry, hk, List.lookup]
      · simp [setEntry, hk, List.lookup, hkk, ih]

theorem lookup_Setenv_ne (env : Env) (key value k : GoString) (h : k ≠ key) :
    LookupEnv (Setenv env key value) k = LookupEnv env k := by
  unfold Setenv
  split
  · rfl
  · exact lookup_setEntry_ne env key value k h

/-- Loading the `.env` file never changes a variable the process environment already holds. -/
theorem lookup_load_of_present (env0 : Env) (k x : GoString) (h0 : LookupEnv env0 k = some x)
    (envMap : List (GoString × GoString)) : ∀ env : Env, LookupEnv env k = some x →
    LookupEnv (envMap.foldl
      (fun env kv => if (LookupEnv env0 kv.1).isNone then Setenv env kv.1 kv.2 else env) env) k
      = some x := by
  induction envMap with
  | nil => intro env h; simpa using h
  | cons kv rest ih =>
    intro env h
    rw [List.foldl_cons]
    apply ih
    by_cases hn : (LookupEnv env0 kv.1).isNone = true
    · have hne : k ≠ kv.1 := by
        intro hk
        rw [← hk, h0] at hn
        simp at hn
      rw [if_pos hn, lookup_Setenv_ne _ _ _ _ hne]
      exact h
    · rw [if_neg hn]
      exact h

theorem Getenv_of_lookup (env : Env) (k x : GoString) (h : LookupEnv env k = some x) :
    Getenv env k = x := by
  simp [Getenv, h]

theorem Getenv_of_missing (env : Env) (k : GoString) (h : LookupEnv env k = none) :
    Getenv env k = [] := by
  simp [Getenv, h]

theorem Getenv_load_of_present (w : World) (k x : GoString)
    (h : LookupEnv w.env k = some x) : Getenv (godotenvLoad w).2 k = x := by
  unfold godotenvLoad
  cases w.dotenv with
  | unreadable err => exact Getenv_of_lookup _ _ _ h
  | parsed envMap =>
    exact Getenv_of_lookup _ _ _ (lookup_load_of_present w.env k x h envMap w.env h)

/-! ## The three ways `loadConfig` ends -/

theorem loadConfig_load_err (w : World) (e : GoError) (h : (godotenvLoad w).1 = some e) :
    loadConfig w = ((none, some e), (godotenvLoad w).2) := by
  unfold loadConfig
  generalize godotenvLoad w = r at h
  obtain ⟨err, env⟩ := r
  simp only at h
  subst h
  rfl

theorem loadConfig_atoi_err (w : World) (e : GoError) (h : (godotenvLoad w).1 = none)
    (ha : (Atoi (Getenv (godotenvLoad w).2 (str "DB_PORT"))).2 = some e) :
    loadConfig w = ((none, some e), (godotenvLoad w).2) := by
  unfold loadConfig
  generalize godotenvLoad w = r at h ha
  obtain ⟨err, env⟩ := r
  simp only at h ha
  subst h
  simp only
  generalize Atoi (Getenv env (str "DB_PORT")) = a at ha
  obtain ⟨v, err⟩ := a
  simp only at ha
  subst ha
  rfl

theorem loadConfig_ok (w : World) (v : Int) (h : (godotenvLoad w).1 = none)
    (ha : Atoi (Getenv (godotenvLoad w).2 (str "DB_PORT")) = (v, none)) :
    loadConfig w =
      ((some { DbName := Getenv (godotenvLoad w).2 (str "DB_NAME")
               DbHost := Getenv (godotenvLoad w).2 (str "DB_HOST")
               DbPort := v
               DbUsername := Getenv (godotenvLoad w).2 (str "DB_USERNAME")
               DbPassword := Getenv (godotenvLoad w).2 (str "DB_PASSWORD") }, none),
        (godotenvLoad w).2) := by
  unfold loadConfig
  generalize godotenvLoad w = r at h ha
  obtain ⟨err, env⟩ := r
  simp only at h ha
  subst h
  simp only [ha]

/-- Whenever `loadConfig` hands out a configuration, `godotenv.Load` succeeded, the
port is the integer `DB_PORT` denotes, and the error is nil. -/
theorem loadConfig_some (w : World) (cfg : DatabaseConfig) (h : (loadConfig w).1.1 = some cfg) :
    (godotenvLoad w).1 = none ∧
    base10Value (Getenv (godotenvLoad w).2 (str "DB_PORT")) = some cfg.DbPort ∧
    (loadConfig w).1 = (some cfg, none) ∧
    cfg = { DbName := Getenv (godotenvLoad w).2 (str "DB_NAME")
            DbHost := Getenv (godotenvLoad w).2 (str "DB_HOST")
            DbPort := cfg.DbPort
            DbUsername := Getenv (godotenvLoad w).2 (str "DB_USERNAME")
            DbPassword := Getenv (godotenvLoad w).2 (str "DB_PASSWORD") } := by
  cases hl : (godotenvLoad w).1 with
  | some e =>
    rw [loadConfig_load_err w e hl] at h
    cases h
  | none =>
    cases ha : (Atoi (Getenv (godotenvLoad w).2 (str "DB_PORT"))).2 with
    | some e =>
      rw [loadConfig_atoi_err w e hl ha] at h
      cases h
    | none =>
      have hb := Atoi_nil_err _ ha
      have hpair : Atoi (Getenv (godotenvLoad w).2 (str "DB_PORT")) =
          ((Atoi (Getenv (godotenvLoad w).2 (str "DB_PORT"))).1, none) := by
        rw [← ha]
      have hok := loadConfig_ok w _ hl hpair
      rw [hok] at h
      simp only [Option.some.injEq] at h
      subst h
      exact ⟨rfl, hb, by rw [hok], rfl⟩

theorem loadConfig_port_bounds (w : World) (cfg : DatabaseConfig)
    (h : (loadConfig w).1 = (some cfg, none)) : minInt ≤ cfg.DbPort ∧ cfg.DbPort ≤ maxInt := by
  have h1 : (loadConfig w).1.1 = some cfg := by rw [h]
  exact base10Value_range _ _ (loadConfig_some w cfg h1).2.1

/-! ## Theorems about `loadConfig` -/

/-- C1: whenever the `DB_PORT` that `loadConfig` reads (the environment after
`godotenv.Load`) is unset, empty, or any string that is not a base-10 integer
within the range of `int`, or the process environment itself holds such a
`DB_PORT` (the file never overrides it), `loadConfig` returns a nil
configuration and a non-nil error, whatever the other variables hold. -/
theorem loadConfig_rejects_bad_port (w : World)
    (h : LookupEnv (godotenvLoad w).2 (str "DB_PORT") = none ∨
         Getenv (godotenvLoad w).2 (str "DB_PORT") = [] ∨
         base10Value (Getenv (godotenvLoad w).2 (str "DB_PORT")) = none ∨
         ∃ v, LookupEnv w.env (str "DB_PORT") = some v ∧ base10Value v = none) :
    ∃ e, (loadConfig w).1 = (none, some e) := by
  have hb : base10Value (Getenv (godotenvLoad w).2 (str "DB_PORT")) = none := by
    rcases h with h | h | h | ⟨v, hv, hbad⟩
    · rw [Getenv_of_missing _ _ h]
      rfl
    · rw [h]
      rfl
    · exact h
    · rw [Getenv_load_of_present w _ v hv]
      exact hbad
  cases hl : (godotenvLoad w).1 with
  | some e => exact ⟨e, by rw [loadConfig_load_err w e hl]⟩
  | none =>
    obtain ⟨e, he⟩ := Atoi_err _ hb
    exact ⟨e, by rw [loadConfig_atoi_err w e hl he]⟩

theorem loadConfig_rejects_bad_port_witness :
    ∃ e, (loadConfig worldBadPort).1 = (none, some e) :=
  loadConfig_rejects_bad_port worldBadPort (Or.inr (Or.inr (Or.inl (by decide))))

/-- C2, as stated, fails: with only `DB_PORT` set (and an empty `.env` file), the
variable `DB_NAME` is missing and `loadConfig` still returns a configuration and
a nil error. -/
theorem loadConfig_missing_name_succeeds :
    LookupEnv (godotenvLoad worldPortOnly).2 (str "DB_NAME") = none ∧
    (loadConfig worldPortOnly).1 =
      (some { DbName := [], DbHost := [], DbPort := 5432, DbUsername := [], DbPassword := [] },
       none) := by
  decide

/-- C2, amended: a missing `DB_PORT` makes `loadConfig` fail with an error and no
configuration; a missing `DB_NAME`, `DB_HOST`, `DB_USERNAME` or `DB_PASSWORD`
does not: when `godotenv.Load` succeeds and `DB_PORT` denotes an integer,
`loadConfig` returns a configuration and a nil error, and the field of each
missing variable is the empty string. -/
theorem loadConfig_missing_variable (w : World) :
    (LookupEnv (godotenvLoad w).2 (str "DB_PORT") = none →
      ∃ e, (loadConfig w).1 = (none, some e)) ∧
    (∀ v, (godotenvLoad w).1 = none →
      base10Value (Getenv (godotenvLoad w).2 (str "DB_PORT")) = some v →
      ∃ cfg, (loadConfig w).1 = (some cfg, none) ∧ cfg.DbPort = v ∧
        (LookupEnv (godotenvLoad w).2 (str "DB_NAME") = none → cfg.DbName = []) ∧
        (LookupEnv (godotenvLoad w).2 (str "DB_HOST") = none → cfg.DbHost = []) ∧
        (LookupEnv (godotenvLoad w).2 (str "DB_USERNAME") = none → cfg.DbUsername = []) ∧
        (LookupEnv (godotenvLoad w).2 (str "DB_PASSWORD") = none → cfg.DbPassword = [])) := by
  constructor
  · intro h
    have hb : base10Value (Getenv (godotenvLoad w).2 (str "DB_PORT")) = none := by
      rw [Getenv_of_missing _ _ h]
      rfl
    cases hl : (godotenvLoad w).1 with
    | some e => exact ⟨e, by rw [loadConfig_load_err w e hl]⟩
    | none =>
      obtain ⟨e, he⟩ := Atoi_err _ hb
      exact ⟨e, by rw [loadConfig_atoi_err w e hl he]⟩
  · intro v hl hb
    have hok := loadConfig_ok w v hl (Atoi_ok _ v hb)
    refine ⟨_, by rw [hok], rfl, ?_, ?_, ?_, ?_⟩ <;>
      · intro hm
        exact Getenv_of_missing _ _ hm

theorem loadConfig_missing_variable_witness :
    ∃ cfg, (loadConfig worldPortOnly).1 = (some cfg, none) ∧ cfg.DbPort = 5432 ∧
      (LookupEnv (godotenvLoad worldPortOnly).2 (str "DB_NAME") = none → cfg.DbName = []) ∧
      (LookupEnv (godotenvLoad worldPortOnly).2 (str "DB_HOST") = none → cfg.DbHost = []) ∧
      (LookupEnv (godotenvLoad worldPortOnly).2 (str "DB_USERNAME") = none →
        cfg.DbUsername = []) ∧
      (LookupEnv (godotenvLoad worldPortOnly).2 (str "DB_PASSWORD") = none →
        cfg.DbPassword = []) :=
  (loadConfig_missing_variable worldPortOnly).2 5432 (by decide) (by decide)

/-- C3, as stated, fails: with all five variables in the process environment and a
well-formed `DB_PORT`, but no `.env` file to open, `loadConfig` returns the
error of `godotenv.Load` and no configuration. -/
theorem loadConfig_without_file_fails :
    LookupEnv worldNoFile.env (str "DB_NAME") = some (str "app") ∧
    LookupEnv worldNoFile.env (str "DB_HOST") = some (str "db") ∧
    LookupEnv worldNoFile.env (str "DB_USERNAME") = some (str "u") ∧
    LookupEnv worldNoFile.env (str "DB_PASSWORD") = some (str "p") ∧
    LookupEnv worldNoFile.env (str "DB_PORT") = some (str "5432") ∧
    base10Value (str "5432") = some 5432 ∧
    (loadConfig worldNoFile).1 = (none, some (.external 2)) := by
  decide

/-- C3, amended: the `.env` file is required. When `godotenv.Load` reports an error,
`loadConfig` returns that error and a nil configuration and leaves the
environment as it was; when the file is read, every process environment that
already holds all five variables with `DB_PORT` a base-10 integer makes
`loadConfig` return the configuration of these five values and a nil error. -/
theorem loadConfig_env_file (w : World) :
    (∀ err, w.dotenv = .unreadable err → loadConfig w = ((none, some err), w.env)) ∧
    (∀ envMap name host user pw port v, w.dotenv = .parsed envMap →
      LookupEnv w.env (str "DB_NAME") = some name →
      LookupEnv w.env (str "DB_HOST") = some host →
      LookupEnv w.env (str "DB_USERNAME") = some user →
      LookupEnv w.env (str "DB_PASSWORD") = some pw →
      LookupEnv w.env (str "DB_PORT") = some port →
      base10Value port = some v →
      (loadConfig w).1 =
        (some { DbName := name, DbHost := host, DbPort := v, DbUsername := user,
                DbPassword := pw }, none)) := by
  constructor
  · intro err h
    have hl : godotenvLoad w = (some err, w.env) := by
      unfold godotenvLoad
      rw [h]
    have := loadConfig_load_err w err (by rw [hl])
    rw [this, hl]
  · intro envMap name host user pw port v h hn hh hu hp hport hv
    have hl : godotenvLoad w = (none, envMap.foldl
        (fun env kv => if (LookupEnv w.env kv.1).isNone then Setenv env kv.1 kv.2 else env)
        w.env) := by
      unfold godotenvLoad
      rw [h]
    have keep : ∀ k x, LookupEnv w.env k = some x → Getenv (godotenvLoad w).2 k = x := by
      intro k x hk
      rw [hl]
      exact Getenv_of_lookup _ _ _ (lookup_load_of_present w.env k x hk envMap w.env hk)
    have hatoi : Atoi (Getenv (godotenvLoad w).2 (str "DB_PORT")) = (v, none) := by
      rw [keep _ _ hport]
      exact Atoi_ok _ v hv
    have hok := loadConfig_ok w v (by rw [hl]) hatoi
    rw [hok, keep _ _ hn, keep _ _ hh, keep _ _ hu, keep _ _ hp]

theorem loadConfig_env_file_witness :
    (loadConfig worldEmptyFile).1 =
      (some configExample, none) :=
  (loadConfig_env_file worldEmptyFile).2 [] (str "app") (str "db") (str "u") (str "p")
    (str "5432") 5432 rfl (by decide) (by decide) (by decide) (by decide) (by decide) (by decide)

/-- C4, as stated, fails: with `DB_PORT` set to `-5`, `loadConfig` returns a configuration
and a nil error, and the port of that configuration is `-5`, which is not
positive. -/
theorem loadConfig_negative_port :
    (loadConfig worldNegPort).1 = (some configNegPort, none) ∧
    ¬ (configNegPort.DbPort > 0) := by
  decide

/-- C4, amended: every configuration that `loadConfig` returns without error has as
port the integer its `DB_PORT` denotes in base 10, and that integer is within
the range of `int`: `-2^63 ≤ DbPort ≤ 2^63 - 1`. Zero and negative ports are
returned as they are. -/
theorem loadConfig_port_in_range (w : World) (cfg : DatabaseConfig)
    (h : (loadConfig w).1 = (some cfg, none)) :
    base10Value (Getenv (godotenvLoad w).2 (str "DB_PORT")) = some cfg.DbPort ∧
    -(2 ^ 63) ≤ cfg.DbPort ∧ cfg.DbPort ≤ 2 ^ 63 - 1 := by
  have h1 : (loadConfig w).1.1 = some cfg := by rw [h]
  have hs := loadConfig_some w cfg h1
  exact ⟨hs.2.1, base10Value_range _ _ hs.2.1⟩

theorem loadConfig_port_in_range_witness :
    base10Value (Getenv (godotenvLoad worldNegPort).2 (str "DB_PORT")) =
      some configNegPort.DbPort ∧
    -(2 ^ 63) ≤ configNegPort.DbPort ∧ configNegPort.DbPort ≤ 2 ^ 63 - 1 :=
  loadConfig_port_in_range worldNegPort configNegPort (by decide)

/-! ## Theorems about the connection string -/

theorem connString_eq (cfg : DatabaseConfig) (hmin : minInt ≤ cfg.DbPort)
    (hmax : cfg.DbPort ≤ maxInt) : connString cfg = some (specDSN cfg) := by
  have hfmt : str "postgres://%s:%s@%s:%d/%s" =
      [112, 111, 115, 116, 103, 114, 101, 115, 58, 47, 47, 37, 115, 58, 37, 115, 64, 37, 115,
        58, 37, 100, 47, 37, 115] := by decide
  have h1 : str "postgres://" = [112, 111, 115, 116, 103, 114, 101, 115, 58, 47, 47] := by
    decide
  have h2 : str ":" = [58] := by decide
  have h3 : str "@" = [64] := by decide
  have h4 : str "/" = [47] := by decide
  unfold connString Sprintf specDSN
  rw [hfmt, h1, h2, h3, h4]
  simp [doPrintf, fmtInteger_eq _ hmin hmax]

theorem run_of_config (w : World) (x : Externals) (cfg : DatabaseConfig)
    (h : (loadConfig w).1 = (some cfg, none)) :
    run w x =
      match x.poolNew (specDSN cfg) with
      | some err => ⟨.returns (some err), [.loadConfig, .poolNew (specDSN cfg)]⟩
      | none =>
        match x.ping with
        | some err => ⟨.returns (some err), [.loadConfig, .poolNew (specDSN cfg), .ping]⟩
        | none =>
          serve x [.loadConfig, .poolNew (specDSN cfg), .ping, .makeChan 1,
            .newServer (str ":8080"),
            .goListenAndServe] := by
  have hr := loadConfig_port_bounds w cfg h
  have hd := connString_eq cfg hr.1 hr.2
  unfold run
  rw [h]
  simp only [hd]

theorem serve_cases (x : Externals) (st : List Event) :
    (selectArm x.ctxDone (errChanAtSelect x) x.pickDone = none ∧
      serve x st = ⟨.blocks, st⟩) ∨
    (selectArm x.ctxDone (errChanAtSelect x) x.pickDone = some .ctxDone ∧
      serve x st = ⟨.returns x.shutdown,
        st ++ [.withTimeout (5 * Second), .shutdown (5 * Second), .cancel]⟩) ∨
    (∃ err, selectArm x.ctxDone (errChanAtSelect x) x.pickDone = some (.errChan err) ∧
      serve x st = ⟨.returns err, st⟩) := by
  unfold serve
  cases selectArm x.ctxDone (errChanAtSelect x) x.pickDone with
  | none => simp
  | some a =>
    cases a with
    | ctxDone => cases x.shutdown <;> simp
    | errChan err => simp

theorem selectArm_errChan (x : Externals) (err : Option GoError)
    (h : selectArm x.ctxDone (errChanAtSelect x) x.pickDone = some (.errChan err)) :
    ∃ e, err = some e ∧ x.listenAndServe = some (some e) := by
  unfold errChanAtSelect at h
  cases hl : x.listenAndServe with
  | none =>
    rw [hl] at h
    cases hc : x.ctxDone <;> simp [selectArm, hc] at h
  | some r =>
    rw [hl] at h
    cases r with
    | none => cases hc : x.ctxDone <;> simp [selectArm, acceptLoop, hc] at h
    | some e =>
      refine ⟨e, ?_, rfl⟩
      cases hc : x.ctxDone <;> cases hp : x.pickDone <;>
        simp [selectArm, acceptLoop, hc, hp] at h <;> exact h.symm

/-! ## Theorems about the connection string, `run` and `HealthCheck` -/

/-- C5: for every configuration (with the port an `int`), the connection string built on
line 57 is `"postgres://" ++ DbUsername ++ ":" ++ DbPassword ++ "@" ++ DbHost ++ ":" ++
decimal(DbPort) ++ "/" ++ DbName`, and in every execution of `run` on that
configuration it is the one string passed to the pool constructor. -/
theorem connString_spec (cfg : DatabaseConfig) (hmin : -(2 ^ 63) ≤ cfg.DbPort)
    (hmax : cfg.DbPort ≤ 2 ^ 63 - 1) :
    connString cfg =
      some (str "postgres://" ++ cfg.DbUsername ++ str ":" ++ cfg.DbPassword ++ str "@" ++
        cfg.DbHost ++ str ":" ++ decimal cfg.DbPort ++ str "/" ++ cfg.DbName) ∧
    ∀ w x, (loadConfig w).1 = (some cfg, none) →
      ∀ dsn, Event.poolNew dsn ∈ (run w x).trace ↔ dsn = specDSN cfg := by
  refine ⟨connString_eq cfg hmin hmax, ?_⟩
  intro w x h dsn
  rw [run_of_config w x cfg h]
  cases x.poolNew (specDSN cfg) with
  | some e => simp
  | none =>
    cases x.ping with
    | some e => simp
    | none =>
      rcases serve_cases x [.loadConfig, .poolNew (specDSN cfg), .ping, .makeChan 1,
        .newServer (str ":8080"), .goListenAndServe] with ⟨_, hs⟩ | ⟨_, hs⟩ | ⟨err, _, hs⟩ <;>
        simp [hs]

theorem connString_spec_witness :
    connString configExample = some (str "postgres://u:p@db:5432/app") :=
  (connString_spec configExample (by decide) (by decide)).1

/-- C6: after a successful startup, when the `select` resolves on the cancellation arm,
`run` sets a timeout of 5 seconds, calls `Shutdown` exactly once and returns
what `Shutdown` returned, nil or not, whatever the listener has reported. -/
theorem run_cancellation_arm (w : World) (x : Externals) (cfg : DatabaseConfig)
    (hcfg : (loadConfig w).1 = (some cfg, none))
    (hpool : x.poolNew (specDSN cfg) = none) (hping : x.ping = none)
    (harm : selectArm x.ctxDone (errChanAtSelect x) x.pickDone = some .ctxDone) :
    (run w x).outcome = .returns x.shutdown ∧
    (run w x).trace =
      [.loadConfig, .poolNew (specDSN cfg), .ping, .makeChan 1, .newServer (str ":8080"),
       .goListenAndServe, .withTimeout (5 * Second), .shutdown (5 * Second), .cancel] ∧
    (run w x).trace.count (.shutdown (5 * Second)) = 1 := by
  rw [run_of_config w x cfg hcfg, hpool, hping]
  rcases serve_cases x [.loadConfig, .poolNew (specDSN cfg), .ping, .makeChan 1,
    .newServer (str ":8080"), .goListenAndServe] with ⟨ha, _⟩ | ⟨_, hs⟩ | ⟨err, ha, _⟩
  · rw [harm] at ha
    cases ha
  · rw [hs]
    refine ⟨rfl, ?_, ?_⟩
    · simp [Second]
    · simp [Second, List.count_cons]
  · rw [harm] at ha
    cases ha

theorem run_cancellation_arm_witness :
    (run worldEmptyFile externalsCancel).outcome = .returns none ∧
    (run worldEmptyFile externalsCancel).trace =
      [.loadConfig, .poolNew (specDSN configExample), .ping, .makeChan 1,
       .newServer (str ":8080"), .goListenAndServe, .withTimeout (5 * Second),
       .shutdown (5 * Second), .cancel] ∧
    (run worldEmptyFile externalsCancel).trace.count (.shutdown (5 * Second)) = 1 :=
  run_cancellation_arm worldEmptyFile externalsCancel configExample
    (by decide) rfl rfl (by decide)

/-- C7: after a successful startup, when the `select` resolves on the listener-error arm
with error `err`, that error is non-nil (it is what `ListenAndServe` returned),
`run` returns exactly it, and the trace holds no `Shutdown` call and no timeout. -/
theorem run_listener_error_arm (w : World) (x : Externals) (cfg : DatabaseConfig)
    (err : Option GoError) (hcfg : (loadConfig w).1 = (some cfg, none))
    (hpool : x.poolNew (specDSN cfg) = none) (hping : x.ping = none)
    (harm : selectArm x.ctxDone (errChanAtSelect x) x.pickDone = some (.errChan err)) :
    (∃ e, err = some e ∧ x.listenAndServe = some (some e)) ∧
    (run w x).outcome = .returns err ∧
    (∀ d, Event.shutdown d ∉ (run w x).trace) ∧
    ∀ d, Event.withTimeout d ∉ (run w x).trace := by
  refine ⟨selectArm_errChan x err harm, ?_⟩
  rw [run_of_config w x cfg hcfg, hpool, hping]
  rcases serve_cases x [.loadConfig, .poolNew (specDSN cfg), .ping, .makeChan 1,
    .newServer (str ":8080"), .goListenAndServe] with ⟨ha, _⟩ | ⟨ha, _⟩ | ⟨err', ha, hs⟩
  · rw [harm] at ha
    cases ha
  · rw [harm] at ha
    cases ha
  · rw [harm] at ha
    cases ha
    simp [hs]

theorem run_listener_error_arm_witness :
    (∃ e, some (GoError.external 98) = some e ∧
      externalsBindFails.listenAndServe = some (some e)) ∧
    (run worldEmptyFile externalsBindFails).outcome = .returns (some (.external 98)) ∧
    (∀ d, Event.shutdown d ∉ (run worldEmptyFile externalsBindFails).trace) ∧
    ∀ d, Event.withTimeout d ∉ (run worldEmptyFile externalsBindFails).trace :=
  run_listener_error_arm worldEmptyFile externalsBindFails configExample
    (some (.external 98)) (by decide) rfl rfl (by decide)

/-- C8: startup is a fail-fast gate. If `loadConfig` fails, `run` returns that error and
has called nothing else (no pool is constructed); if pool construction fails, or
the ping fails, `run` returns that error and the trace ends there, with no
server constructed or started. Whenever the server is constructed or started,
the configuration was loaded, the pool was constructed, and exactly one ping
was made and succeeded, all before it. -/
theorem run_fail_fast (w : World) (x : Externals) :
    (∀ e, (loadConfig w).1.2 = some e →
      run w x = ⟨.returns (some e), [.loadConfig]⟩) ∧
    (∀ cfg e, (loadConfig w).1 = (some cfg, none) → x.poolNew (specDSN cfg) = some e →
      run w x = ⟨.returns (some e), [.loadConfig, .poolNew (specDSN cfg)]⟩) ∧
    (∀ cfg e, (loadConfig w).1 = (some cfg, none) → x.poolNew (specDSN cfg) = none →
      x.ping = some e →
      run w x = ⟨.returns (some e), [.loadConfig, .poolNew (specDSN cfg), .ping]⟩) ∧
    ((Event.goListenAndServe ∈ (run w x).trace ∨
        ∃ addr, Event.newServer addr ∈ (run w x).trace) →
      x.ping = none ∧ (run w x).trace.count .ping = 1 ∧
      (run w x).trace.count .goListenAndServe = 1 ∧
      ∃ cfg, (loadConfig w).1 = (some cfg, none) ∧ x.poolNew (specDSN cfg) = none ∧
        (run w x).trace.take 6 =
          [.loadConfig, .poolNew (specDSN cfg), .ping, .makeChan 1, .newServer (str ":8080"),
           .goListenAndServe]) := by
  refine ⟨?_, ?_, ?_, ?_⟩
  · intro e h
    unfold run
    generalize (loadConfig w).1 = p at h
    obtain ⟨c, e'⟩ := p
    simp only at h
    subst h
    cases c <;> rfl
  · intro cfg e h hp
    rw [run_of_config w x cfg h, hp]
  · intro cfg e h hp hg
    rw [run_of_config w x cfg h, hp, hg]
  · intro hmem
    cases hl : (loadConfig w).1 with
    | mk c e =>
      cases e with
      | some e =>
        unfold run at hmem
        rw [hl] at hmem
        cases c <;> simp at hmem
      | none =>
        cases c with
        | none =>
          unfold run at hmem
          rw [hl] at hmem
          simp at hmem
        | some cfg =>
          rw [run_of_config w x cfg hl] at hmem ⊢
          cases hp : x.poolNew (specDSN cfg) with
          | some e =>
            rw [hp] at hmem
            simp at hmem
          | none =>
            cases hg : x.ping with
            | some e =>
              rw [hp, hg] at hmem
              simp at hmem
            | none =>
              dsimp only
              rcases serve_cases x [.loadConfig, .poolNew (specDSN cfg), .ping, .makeChan 1,
                .newServer (str ":8080"), .goListenAndServe] with
                ⟨_, hs⟩ | ⟨_, hs⟩ | ⟨err, _, hs⟩ <;>
              · rw [hs]
                refine ⟨rfl, ?_, ?_, cfg, rfl, hp, ?_⟩ <;> simp [List.count_cons]

theorem run_fail_fast_witness :
    run worldEmptyFile externalsPingFails =
      ⟨.returns (some (.external 111)),
       [.loadConfig, .poolNew (specDSN configExample), .ping]⟩ :=
  (run_fail_fast worldEmptyFile externalsPingFails).2.2.1 configExample
    (.external 111) (by decide) rfl rfl

/-- C9: for every request, `HealthCheck` on the response the server hands it sets the
status to 200 and writes no body byte; on any response it leaves the body
untouched, and its result is the same for every request. The pool is not among
its inputs, and `HealthCheck` is the handler of every registered route. -/
theorem HealthCheck_spec (w : ResponseWriter) (r r' : Request) :
    HealthCheck ResponseWriter.fresh r = { wroteHeader := true, status := 200, body := [] } ∧
    (HealthCheck w r).body = w.body ∧
    (w.wroteHeader = false → (HealthCheck w r).status = 200) ∧
    HealthCheck w r = HealthCheck w r' ∧
    ∀ p ∈ routes, p.2 = HealthCheck := by
  refine ⟨rfl, ?_, ?_, rfl, ?_⟩
  · unfold HealthCheck WriteHeader
    split <;> rfl
  · intro h
    simp [HealthCheck, WriteHeader, h, StatusOK]
  · intro p hp
    simp only [routes, List.mem_singleton] at hp
    rw [hp]

theorem HealthCheck_spec_witness :
    (HealthCheck ResponseWriter.fresh
      { method := str "GET", path := str "/", header := [], body := [] }).status = 200 :=
  (HealthCheck_spec ResponseWriter.fresh
    { method := str "GET", path := str "/", header := [], body := [] }
    { method := str "GET", path := str "/", header := [], body := [] }).2.2.1 rfl

/-- C10: the connection string does not determine the configuration: user `a:b` with
password `c` and user `a` with password `b:c`, all other fields equal, are two
distinct configurations with the same connection string. -/
theorem connString_not_injective :
    configColonInUser ≠ configColonInPassword ∧
    connString configColonInUser = some (str "postgres://a:b:c@db:5432/app") ∧
    connString configColonInPassword = some (str "postgres://a:b:c@db:5432/app") ∧
    ¬ Function.Injective connString := by
  have h1 : configColonInUser ≠ configColonInPassword := by decide
  have h2 : connString configColonInUser = some (str "postgres://a:b:c@db:5432/app") := by
    decide
  have h3 : connString configColonInPassword = some (str "postgres://a:b:c@db:5432/app") := by
    decide
  exact ⟨h1, h2, h3, fun hinj => h1 (hinj (h2.trans h3.symm))⟩

end KubeTest
